import Mathlib

/-!
Shallow embedding of the OpenAI foreign-data-wrapper (`openai_fdw.py`):
the schema-driven validation and coercion pipeline.  JSON values are a
tagged union; schemas are ordered association lists from column name to
the PostgreSQL type name; machine floats are modelled as exact rationals
(the claims only depend on the runtime *type* of float values, never on
binary rounding).
-/

set_option autoImplicit false

/-- Generic JSON value, as produced by Python's `json.loads`: the variants
mirror Python runtime types `NoneType / bool / int / float / str / list / dict`. -/
inductive Json where
  | null
  | bool (b : Bool)
  | int (n : Int)
  | float (q : Rat)
  | str (s : String)
  | arr (xs : List Json)
  | obj (fields : List (String × Json))

/-- Runtime-type test: is this an exact integer (Python `int`, not `bool`)? -/
def Json.isInt : Json → Bool
  | .int _ => true
  | _ => false

/-- Runtime-type test: is this a Python `bool`? -/
def Json.isBool : Json → Bool
  | .bool _ => true
  | _ => false

/-- Runtime-type test: is this a Python `float`? -/
def Json.isFloat : Json → Bool
  | .float _ => true
  | _ => false

/-- Runtime-type test: is this a Python `str`? -/
def Json.isStr : Json → Bool
  | .str _ => true
  | _ => false

/-- Runtime-type test: is this JSON/Python `null`/`None`? -/
def Json.isNull : Json → Bool
  | .null => true
  | _ => false

/-- Python `str.lower()` restricted to its ASCII action (the type names the
wrapper compares against are all ASCII). -/
def pyLower (s : String) : String := (s.data.map Char.toLower).asString

/-- Python `isinstance(value, int)`: `bool` is a subclass of `int`, so
booleans pass this check as well as exact integers. -/
def pyIsInstInt : Json → Bool
  | .int _ => true
  | .bool _ => true
  | _ => false

/-- Python `isinstance(value, (int, float))`: booleans, integers and floats. -/
def pyIsInstNum : Json → Bool
  | .int _ => true
  | .bool _ => true
  | .float _ => true
  | _ => false

/-- Python `isinstance(value, bool)`. -/
def pyIsInstBool : Json → Bool
  | .bool _ => true
  | _ => false

/-- Python `isinstance(value, str)`. -/
def pyIsInstStr : Json → Bool
  | .str _ => true
  | _ => false

/-- Integer type names, from `openai_fdw.py` lines 77/196/229. -/
def intTypeNames : List String := ["integer", "int4", "int8", "bigint", "smallint"]

/-- Float type names, from `openai_fdw.py` lines 79/199/231. -/
def floatTypeNames : List String :=
  ["real", "float4", "float8", "double precision", "numeric", "decimal"]

/-- Boolean type names, from `openai_fdw.py` lines 81/202/233. -/
def boolTypeNames : List String := ["boolean", "bool"]

/-- Text-like type names checked by the validator, line 205. -/
def textTypeNames : List String :=
  ["text", "varchar", "char", "date", "timestamp", "timestamptz"]

/-- `pg_type in [integer, ...]` membership test on the lowercased type name. -/
def isIntType (pg : String) : Bool := intTypeNames.contains pg

/-- `pg_type in [real, ...]` membership test on the lowercased type name. -/
def isFloatType (pg : String) : Bool := floatTypeNames.contains pg

/-- `pg_type in [boolean, bool]` membership test on the lowercased type name. -/
def isBoolType (pg : String) : Bool := boolTypeNames.contains pg

/-- `pg_type in [text, ...]` membership test on the lowercased type name. -/
def isTextType (pg : String) : Bool := textTypeNames.contains pg

/-- Per-column type check of `_validate_row_schema` (lines 193-207): the
declared type name is lowercased and dispatched through the `if/elif` chain;
a type name matching none of the recognized lists is not checked at all. -/
def validateOne (typeName : String) (v : Json) : Bool :=
  if isIntType (pyLower typeName) then pyIsInstInt v
  else if isFloatType (pyLower typeName) then pyIsInstNum v
  else if isBoolType (pyLower typeName) then pyIsInstBool v
  else if isTextType (pyLower typeName) then pyIsInstStr v
  else true

/-- The `for column_name, column_def in self.columns.items()` loop of
`_validate_row_schema` (lines 190-207): a declared column present in the
row is type-checked; an absent column is skipped. -/
def validateFields (cols : List (String × String)) (fields : List (String × Json)) : Bool :=
  match cols with
  | [] => true
  | ct :: rest =>
    (match fields.lookup ct.1 with
     | none => true
     | some v => validateOne ct.2 v) && validateFields rest fields

/-- `_validate_row_schema` (lines 183-209): a non-dict row is rejected
outright (line 187), otherwise every declared column present in the row
must pass its type check. -/
def validate_row_schema (cols : List (String × String)) (row : Json) : Bool :=
  match row with
  | .obj fields => validateFields cols fields
  | _ => false

/-- Python `int(value)` as used at line 230, restricted to JSON values.
Booleans coerce to 0/1, floats truncate toward zero, numeric strings parse
(modelled by `String.toInt?`; the exact grammar of `int(str)` is unreachable
after validation), and `None`/containers raise (`none`). -/
def pyInt : Json → Option Int
  | .bool b => some (if b then 1 else 0)
  | .int n => some n
  | .float q => some (Int.tdiv q.num (q.den : Int))
  | .str s => s.toInt?
  | _ => none

/-- Python `float(value)` as used at line 232, restricted to JSON values.
Booleans coerce to 0.0/1.0, integers widen, floats pass through, and
`None`/containers raise (`none`); numeric strings are unreachable after
validation and modelled as raising. -/
def pyFloat : Json → Option Rat
  | .bool b => some (if b then mkRat 1 1 else mkRat 0 1)
  | .int n => some (mkRat n 1)
  | .float q => some q
  | _ => none

/-- Python truthiness, used by `bool(value)` (line 234) and by
`not result['choices']` (line 149). -/
def pyTruthy : Json → Bool
  | .null => false
  | .bool b => b
  | .int n => if n = 0 then false else true
  | .float q => if q.num = 0 then false else true
  | .str s => if s = "" then false else true
  | .arr xs => !xs.isEmpty
  | .obj fs => !fs.isEmpty

mutual
/-- Python `repr` of a JSON value, used by `str` on containers.  Numeric
rendering of floats differs cosmetically from CPython (exact rational shown
instead of shortest decimal); no claim depends on the rendered text of a
non-string value. -/
def pyRepr : Json → String
  | .null => "None"
  | .bool b => if b then "True" else "False"
  | .int n => toString n
  | .float q => toString q.num ++ "/" ++ toString q.den
  | .str s => "\x27" ++ s ++ "\x27"
  | .arr xs => "[" ++ pyReprList xs ++ "]"
  | .obj fs => "\x7b" ++ pyReprPairs fs ++ "\x7d"

/-- Comma-separated `repr` of list elements. -/
def pyReprList : List Json → String
  | [] => ""
  | [x] => pyRepr x
  | x :: xs => pyRepr x ++ ", " ++ pyReprList xs

/-- Comma-separated `repr` of dict entries. -/
def pyReprPairs : List (String × Json) → String
  | [] => ""
  | [(k, v)] => "\x27" ++ k ++ "\x27: " ++ pyRepr v
  | (k, v) :: fs => "\x27" ++ k ++ "\x27: " ++ pyRepr v ++ ", " ++ pyReprPairs fs
end

/-- Python `str(value)` as used at line 236: identity on strings, textual
representation otherwise. -/
def pyStr : Json → String
  | .str s => s
  | v => pyRepr v

/-- Per-column coercion of `_convert_row_to_postgres_format` (lines 229-236):
dispatch on the lowercased declared type; integer columns via `int(value)`,
float columns via `float(value)`, boolean columns via `bool(value)`, and
everything else (text-like and unrecognized types alike) via `str(value)`. -/
def convertValue (typeName : String) (v : Json) : Option Json :=
  if isIntType (pyLower typeName) then (pyInt v).map Json.int
  else if isFloatType (pyLower typeName) then (pyFloat v).map Json.float
  else if isBoolType (pyLower typeName) then some (Json.bool (pyTruthy v))
  else some (Json.str (pyStr v))

/-- One output cell of the converter (lines 218-239): an absent field and a
present JSON `null` both map to `None`; any other present value is coerced
by `convertValue`. -/
def convertCell (typeName : String) : Option Json → Option Json
  | none => some Json.null
  | some Json.null => some Json.null
  | some v => convertValue typeName v

/-- The `for column_name in self.column_names` loop of
`_convert_row_to_postgres_format` (lines 217-239), iterating the schema's
columns in declaration order; a raising coercion aborts the whole call
(`none`). -/
def convertFields (cols : List (String × String)) (fields : List (String × Json)) :
    Option (List (String × Json)) :=
  match cols with
  | [] => some []
  | ct :: rest =>
    match convertCell ct.2 (fields.lookup ct.1), convertFields rest fields with
    | some w, some out => some ((ct.1, w) :: out)
    | _, _ => none

/-- `_convert_row_to_postgres_format` (lines 211-241) on a parsed JSON row;
only ever called on rows that passed validation, hence on dicts. -/
def convert_row_to_postgres_format (cols : List (String × String)) (row : Json) :
    Option (List (String × Json)) :=
  match row with
  | .obj fields => convertFields cols fields
  | _ => none

/-- Hint mapping of `_generate_schema_info` (lines 75-88): the human-readable
JSON type hint placed in the prompt for each declared column type. -/
def jsonTypeHint (typeName : String) : String :=
  if isIntType (pyLower typeName) then "number (integer)"
  else if isFloatType (pyLower typeName) then "number (float)"
  else if isBoolType (pyLower typeName) then "boolean"
  else if pyLower typeName = "date" then "string (YYYY-MM-DD format)"
  else if pyLower typeName = "timestamp" ∨ pyLower typeName = "timestamptz" then
    "string (ISO 8601 format)"
  else "string"

example : validate_row_schema [("a", "integer")] (.obj [("a", .bool true)]) = true := by decide
example : validate_row_schema [("a", "integer")] (.obj [("a", .float (mkRat 7 2))]) = false := by
  decide
example : validate_row_schema [("a", "float8")] (.obj [("a", .float (mkRat 7 2))]) = true := by
  decide
example : validate_row_schema [("a", "uuid")] (.obj [("a", .int 5)]) = true := by decide
example : validate_row_schema [("a", "integer")] (.obj [("a", .null)]) = false := by decide
example : convert_row_to_postgres_format [("active", "boolean")] (.obj []) =
    some [("active", .null)] := rfl
example : convert_row_to_postgres_format [("a", "integer"), ("b", "text")]
    (.obj [("b", .str "x"), ("a", .bool true), ("zz", .null)]) =
    some [("a", .int 1), ("b", .str "x")] := rfl

/-! ### `json.loads`

A fueled recursive-descent parser for the JSON grammar as accepted by
Python's `json.loads` (strict mode): the literals `null`/`true`/`false`,
numbers (integer literals produce Python `int`, a fraction or exponent
produces `float`), strings with escape sequences, arrays and objects.
Objects keep the first occurrence position of a key with its last value,
like a Python dict built by repeated assignment. -/

/-- The four whitespace characters skipped between JSON tokens. -/
def isJsonWs (c : Char) : Bool :=
  c = ' ' || c = '\t' || c = '\n' || c = '\r'

/-- Skip leading JSON whitespace. -/
def skipWs : List Char → List Char
  | [] => []
  | c :: cs => if isJsonWs c then skipWs cs else c :: cs

/-- Value of a decimal digit run. -/
def natOfDigits (ds : List Char) : Nat :=
  ds.foldl (fun acc c => 10 * acc + (c.toNat - 48)) 0

/-- Value of a hexadecimal digit, if any. -/
def hexVal (c : Char) : Option Nat :=
  if c.isDigit then some (c.toNat - 48)
  else if 'a' ≤ c ∧ c ≤ 'f' then some (c.toNat - 87)
  else if 'A' ≤ c ∧ c ≤ 'F' then some (c.toNat - 55)
  else none

/-- Single-character JSON escape sequences. -/
def simpleEsc : Char → Option Char
  | '"' => some '"'
  | '\\' => some '\\'
  | '/' => some '/'
  | 'b' => some (Char.ofNat 8)
  | 'f' => some (Char.ofNat 12)
  | 'n' => some '\n'
  | 'r' => some '\r'
  | 't' => some '\t'
  | _ => none

/-- Body of a JSON string after the opening quote: returns the decoded
characters and the input remaining after the closing quote.  Control
characters are rejected (strict mode). -/
def parseStringBody : List Char → Option (List Char × List Char)
  | [] => none
  | c :: cs =>
    if c = '"' then some ([], cs)
    else if c = '\\' then
      match cs with
      | 'u' :: c1 :: c2 :: c3 :: c4 :: cs' =>
        match hexVal c1, hexVal c2, hexVal c3, hexVal c4 with
        | some h1, some h2, some h3, some h4 =>
          (parseStringBody cs').map fun p =>
            (Char.ofNat (((h1 * 16 + h2) * 16 + h3) * 16 + h4) :: p.1, p.2)
        | _, _, _, _ => none
      | e :: cs' =>
        match simpleEsc e with
        | some ch => (parseStringBody cs').map fun p => (ch :: p.1, p.2)
        | none => none
      | [] => none
    else if c.toNat < 32 then none
    else (parseStringBody cs).map fun p => (c :: p.1, p.2)

/-- Optional sign followed by a digit run: `(negative, digits, rest)`. -/
def splitSignedDigits : List Char → Bool × List Char × List Char
  | '+' :: r => (false, r.takeWhile Char.isDigit, r.dropWhile Char.isDigit)
  | '-' :: r => (true, r.takeWhile Char.isDigit, r.dropWhile Char.isDigit)
  | r => (false, r.takeWhile Char.isDigit, r.dropWhile Char.isDigit)

/-- Exact value of a decimal literal `±(ip.frac)·10^(±e)` as a rational. -/
def ratOfParts (neg : Bool) (ip : Nat) (fracDs : List Char) (expNeg : Bool) (e : Nat) : Rat :=
  let numAbs : Nat := ip * 10 ^ fracDs.length + natOfDigits fracDs
  let numSigned : Int := if neg then -(numAbs : Int) else (numAbs : Int)
  if expNeg then mkRat numSigned (10 ^ fracDs.length * 10 ^ e)
  else mkRat (numSigned * (10 : Int) ^ e) (10 ^ fracDs.length)

/-- JSON number literal: optional minus, integer part without redundant
leading zeros, optional fraction, optional exponent.  An integer literal
yields `Json.int`; a fraction or exponent yields `Json.float`. -/
def parseNumber (cs : List Char) : Option (Json × List Char) :=
  let (neg, cs1) := match cs with
    | '-' :: r => (true, r)
    | _ => (false, cs)
  let ds := cs1.takeWhile Char.isDigit
  let r1 := cs1.dropWhile Char.isDigit
  if ds.isEmpty then none
  else if ds.length > 1 && ds.head? = some '0' then none
  else
    let ip := natOfDigits ds
    match r1 with
    | '.' :: r =>
      let fracDs := r.takeWhile Char.isDigit
      let r2 := r.dropWhile Char.isDigit
      if fracDs.isEmpty then none
      else
        match r2 with
        | 'e' :: r3 | 'E' :: r3 =>
          let (en, eds, r4) := splitSignedDigits r3
          if eds.isEmpty then none
          else some (.float (ratOfParts neg ip fracDs en (natOfDigits eds)), r4)
        | _ => some (.float (ratOfParts neg ip fracDs false 0), r2)
    | 'e' :: r3 | 'E' :: r3 =>
      let (en, eds, r4) := splitSignedDigits r3
      if eds.isEmpty then none
      else some (.float (ratOfParts neg ip [] en (natOfDigits eds)), r4)
    | _ => some (.int (if neg then -(ip : Int) else (ip : Int)), r1)

/-- Insert-or-overwrite into an association list, keeping the position of an
existing key — the behavior of assignment into a Python dict. -/
def dictUpsert (fs : List (String × Json)) (k : String) (v : Json) : List (String × Json) :=
  match fs with
  | [] => [(k, v)]
  | (k0, v0) :: rest => if k0 = k then (k0, v) :: rest else (k0, v0) :: dictUpsert rest k v

/-- Fold parsed object members into a Python-dict-like association list. -/
def dictOfPairs (pairs : List (String × Json)) : List (String × Json) :=
  pairs.foldl (fun acc kv => dictUpsert acc kv.1 kv.2) []

mutual
/-- One JSON value, by recursive descent; `fuel` bounds recursion depth. -/
def parseVal : Nat → List Char → Option (Json × List Char)
  | 0, _ => none
  | fuel + 1, cs =>
    match skipWs cs with
    | 'n' :: 'u' :: 'l' :: 'l' :: rest => some (.null, rest)
    | 't' :: 'r' :: 'u' :: 'e' :: rest => some (.bool true, rest)
    | 'f' :: 'a' :: 'l' :: 's' :: 'e' :: rest => some (.bool false, rest)
    | '"' :: rest => (parseStringBody rest).map fun p => (.str p.1.asString, p.2)
    | '[' :: rest =>
      (match skipWs rest with
       | ']' :: r => some (.arr [], r)
       | r => (parseItems fuel r).map fun p => (.arr p.1, p.2))
    | '{' :: rest =>
      (match skipWs rest with
       | '}' :: r => some (.obj [], r)
       | r => (parseMembers fuel r).map fun p => (.obj (dictOfPairs p.1), p.2))
    | other => parseNumber other

/-- Comma-separated array items up to the closing bracket. -/
def parseItems : Nat → List Char → Option (List Json × List Char)
  | 0, _ => none
  | fuel + 1, cs =>
    match parseVal fuel cs with
    | none => none
    | some (v, r) =>
      match skipWs r with
      | ',' :: r2 =>
        (match parseItems fuel r2 with
         | none => none
         | some (xs, r3) => some (v :: xs, r3))
      | ']' :: r2 => some ([v], r2)
      | _ => none

/-- Comma-separated `"key": value` members up to the closing brace. -/
def parseMembers : Nat → List Char → Option (List (String × Json) × List Char)
  | 0, _ => none
  | fuel + 1, cs =>
    match skipWs cs with
    | '"' :: rest =>
      (match parseStringBody rest with
       | none => none
       | some (k, r) =>
         match skipWs r with
         | ':' :: r2 =>
           (match parseVal fuel r2 with
            | none => none
            | some (v, r3) =>
              match skipWs r3 with
              | ',' :: r4 =>
                (match parseMembers fuel r4 with
                 | none => none
                 | some (fs, r5) => some ((k.asString, v) :: fs, r5))
              | '}' :: r4 => some ([(k.asString, v)], r4)
              | _ => none)
         | _ => none)
    | _ => none
end

/-- Python `json.loads` on a character list: parse one value and require
only whitespace to remain. -/
def jsonLoads (cs : List Char) : Option Json :=
  match parseVal (2 * cs.length + 2) cs with
  | none => none
  | some (v, rest) => if (skipWs rest).isEmpty then some v else none

example : jsonLoads "[1, 2]".toList = some (.arr [.int 1, .int 2]) := rfl
example : jsonLoads "\x7b\x7d".toList = some (.obj []) := rfl
example : jsonLoads "null".toList = some .null := rfl
example : jsonLoads "Sorry, I cannot comply.".toList = none := rfl
example : jsonLoads "[\x7b\"a\": null\x7d]".toList = some (.arr [.obj [("a", .null)]]) := rfl
example : jsonLoads "[\x7b\"a\": 3.5\x7d]".toList =
    some (.arr [.obj [("a", .float (mkRat 7 2))]]) := rfl
example : jsonLoads "[-2e2]".toList = some (.arr [.float (mkRat (-200) 1)]) := rfl
example : jsonLoads "[01]".toList = none := rfl
example : jsonLoads "".toList = none := rfl
example : jsonLoads "[\"a\\nb\"]".toList = some (.arr [.str "a\nb"]) := rfl

/-! ### Transport, response extraction and the execute pipeline -/

/-- Outcome of the HTTP exchange of `_make_openai_request` (lines 138-147),
as seen by the code after the transport library returns: either a
`requests` exception (including the non-2xx case surfaced by
`raise_for_status`), a response body that is not valid JSON (so that
`response.json()` raises), or a parsed JSON envelope. -/
inductive TransportResult where
  | exn
  | badBody
  | ok (body : Json)

/-- Python whitespace stripped by `str.strip()` (ASCII cases). -/
def isPyWs (c : Char) : Bool :=
  c = ' ' || c = '\t' || c = '\n' || c = '\r' || c = Char.ofNat 11 || c = Char.ofNat 12

/-- Python `str.strip()`: drop leading and trailing whitespace. -/
def pyStrip (cs : List Char) : List Char :=
  ((cs.dropWhile isPyWs).reverse.dropWhile isPyWs).reverse

/-- Content-extraction inside `_make_openai_request`, lines 153 and 157-161:
strip the text, drop a leading 7-character marker exactly when the text
starts with the literal prefix composed of a code fence and the tag `json`,
drop a trailing 3-character code fence when present, and strip again. -/
def extractContent (cs : List Char) : List Char :=
  let c := pyStrip cs
  let c := if "```json".toList.isPrefixOf c then c.drop 7 else c
  let c := if "```".toList.isSuffixOf c then c.take (c.length - 3) else c
  pyStrip c

/-- Does `pat` occur as a contiguous run inside `l` (Python `in` on `str`)? -/
def containsSeq (pat : List Char) : List Char → Bool
  | [] => pat.isEmpty
  | c :: rest => pat.isPrefixOf (c :: rest) || containsSeq pat rest

/-- Result of evaluating `result['choices'][0]['message']['content'].strip()`
on the parsed envelope: `noChoices` models the explicit
`'choices' not in result or not result['choices']` early return (lines
149-151), `raised` models any exception from the subscript chain or from
calling `.strip()` on a non-string (caught by the blanket handler at line
179), and `content` carries the completion text. -/
inductive ContentResult where
  | noChoices
  | raised
  | content (s : String)

/-- Navigate the response envelope exactly as lines 149-153 do, including the
Python semantics of `in` and subscripts on each possible runtime type. -/
def envelopeContent (body : Json) : ContentResult :=
  match body with
  | .obj fields =>
    match fields.lookup "choices" with
    | none => .noChoices
    | some choices =>
      if pyTruthy choices then
        match choices with
        | .arr (c0 :: _) =>
          (match c0 with
           | .obj mf =>
             (match mf.lookup "message" with
              | some (.obj cf) =>
                (match cf.lookup "content" with
                 | some (.str s) => .content s
                 | some _ => .raised
                 | none => .raised)
              | some _ => .raised
              | none => .raised)
           | _ => .raised)
        | _ => .raised
      else .noChoices
  | .arr elems =>
    if elems.any (fun e => match e with | .str s => s = "choices" | _ => false)
    then .raised else .noChoices
  | .str s =>
    if containsSeq "choices".toList s.toList then .raised else .noChoices
  | _ => .raised

/-- Diagnostic events sent to `log_to_postgres` by the request and execute
paths, tagged by call site. -/
inductive LogEvent where
  | requestDebug
  | noChoicesError
  | parsedInfo (n : Nat)
  | parseError
  | notArrayError
  | httpError
  | unexpectedError
  | noDataWarning
  | skipRowWarning
  | execError

/-- Events logged at the ERROR severity. -/
def LogEvent.isError : LogEvent → Bool
  | .noChoicesError => true
  | .parseError => true
  | .notArrayError => true
  | .httpError => true
  | .unexpectedError => true
  | .execError => true
  | _ => false

/-- `_make_openai_request` (lines 108-181): every failure path returns
`None` (never raises), logging one ERROR event; success returns the parsed
list of candidate rows. -/
def make_openai_request (tr : TransportResult) : Option (List Json) × List LogEvent :=
  match tr with
  | .exn => (none, [.requestDebug, .httpError])
  | .badBody => (none, [.requestDebug, .unexpectedError])
  | .ok body =>
    match envelopeContent body with
    | .noChoices => (none, [.requestDebug, .noChoicesError])
    | .raised => (none, [.requestDebug, .unexpectedError])
    | .content s =>
      match jsonLoads (extractContent s.toList) with
      | none => (none, [.requestDebug, .parseError])
      | some (.arr xs) => (some xs, [.requestDebug, .parsedInfo xs.length])
      | some _ => (none, [.requestDebug, .notArrayError])

/-- The `for row_data in response_data` loop of `execute` (lines 58-62):
valid rows are converted and yielded, invalid rows are logged and skipped;
a raising conversion aborts the loop (`Except.error`). -/
def processRows (cols : List (String × String)) :
    List Json → Except Unit (List (List (String × Json))) × List LogEvent
  | [] => (.ok [], [])
  | r :: rs =>
    if validate_row_schema cols r then
      match convert_row_to_postgres_format cols r with
      | none => (.error (), [])
      | some out =>
        let (res, logs) := processRows cols rs
        (match res with
         | .ok l => .ok (out :: l)
         | .error e => .error e, logs)
    else
      let (res, logs) := processRows cols rs
      (res, .skipRowWarning :: logs)

/-- FDW instance state, the fields assigned in `__init__` (lines 21-43). -/
structure FDW where
  api_key : Option String
  prompt : Option String
  model : String
  max_tokens : Int
  temperature : Rat
  max_rows : Int
  columns : List (String × String)
  column_names : List String
  response_cache : Option (List Json)

/-- Python `int(s)` on a string option value: strip, optional sign, digits. -/
def pyIntOfString (s : String) : Option Int :=
  match pyStrip s.toList with
  | '-' :: ds => if ds.isEmpty || !ds.all Char.isDigit then none
                 else some (-(natOfDigits ds : Int))
  | '+' :: ds => if ds.isEmpty || !ds.all Char.isDigit then none
                 else some (natOfDigits ds : Int)
  | ds => if ds.isEmpty || !ds.all Char.isDigit then none
          else some (natOfDigits ds : Int)

/-- Python `float(s)` on a string option value: strip, optional sign,
decimal literal with optional fraction and exponent. -/
def pyFloatOfString (s : String) : Option Rat :=
  let cs := pyStrip s.toList
  let (neg, cs1) := match cs with
    | '-' :: r => (true, r)
    | '+' :: r => (false, r)
    | r => (false, r)
  let ds := cs1.takeWhile Char.isDigit
  let r1 := cs1.dropWhile Char.isDigit
  let (fracDs, r2, hasDot) := match r1 with
    | '.' :: r => (r.takeWhile Char.isDigit, r.dropWhile Char.isDigit, true)
    | r => ([], r, false)
  if ds.isEmpty && fracDs.isEmpty then none
  else
    match r2 with
    | [] => some (ratOfParts neg (natOfDigits ds) fracDs false 0)
    | 'e' :: r3 | 'E' :: r3 =>
      let (en, eds, r4) := splitSignedDigits r3
      if eds.isEmpty || !r4.isEmpty || (!hasDot && ds.isEmpty) then none
      else some (ratOfParts neg (natOfDigits ds) fracDs en (natOfDigits eds))
    | _ => none

/-- `__init__` (lines 21-43): read options with their defaults, record the
column definitions and their names in order, and set the response cache
field to `None`.  A non-numeric option string makes `int()`/`float()` raise
(`none`). -/
def initFDW (options : List (String × String)) (columns : List (String × String)) :
    Option FDW :=
  match pyIntOfString ((options.lookup "max_tokens").getD "2000"),
        pyFloatOfString ((options.lookup "temperature").getD "0.7"),
        pyIntOfString ((options.lookup "max_rows").getD "100") with
  | some mt, some temp, some mr =>
    some { api_key := options.lookup "api_key"
           prompt := options.lookup "prompt"
           model := (options.lookup "model").getD "gpt-3.5-turbo"
           max_tokens := mt
           temperature := temp
           max_rows := mr
           columns := columns
           column_names := columns.map Prod.fst
           response_cache := none }
  | _, _, _ => none

/-- The hint dictionary `schema_obj` built by `_generate_schema_info`
(lines 72-90), threaded with the instance state it reads. -/
def generateSchemaInfoS (st : FDW) : List (String × String) × FDW :=
  (st.columns.map fun ct => (ct.1, jsonTypeHint ct.2), st)

/-- `_make_openai_request` threaded with the instance state it reads; the
method body contains no attribute assignment, so the state passes through. -/
def makeOpenAIRequestS (st : FDW) (tr : TransportResult) :
    (Option (List Json) × List LogEvent) × FDW :=
  (make_openai_request tr, st)

/-- `execute` (lines 45-66): build the schema instructions, issue the
request, return zero rows with a WARNING when no data came back (line 54's
falsy test also catches an empty array), otherwise validate/convert each
row; an unexpected exception is logged and re-raised (`Except.error`). -/
def executeS (st : FDW) (tr : TransportResult) :
    (Except Unit (List (List (String × Json))) × List LogEvent) × FDW :=
  let (_schemaInfo, st1) := generateSchemaInfoS st
  let ((respData, logs), st2) := makeOpenAIRequestS st1 tr
  match respData with
  | none => ((.ok [], logs ++ [.noDataWarning]), st2)
  | some [] => ((.ok [], logs ++ [.noDataWarning]), st2)
  | some (r :: rs) =>
    let (res, logs2) := processRows st2.columns (r :: rs)
    match res with
    | .ok l => ((.ok l, logs ++ logs2), st2)
    | .error e => ((.error e, logs ++ logs2 ++ [.execError]), st2)

/-- A well-formed envelope wrapping a completion text, for concrete runs. -/
def mkEnvelope (s : String) : Json :=
  .obj [("choices", .arr [.obj [("message", .obj [("content", .str s)])]])]

example : (make_openai_request (.ok (mkEnvelope "[\x7b\"a\": 1\x7d]"))).1 =
    some [.obj [("a", .int 1)]] := rfl

/-! ### Helper lemmas -/

/-- The spec's notion of a value whose runtime type matches the declared
type exactly: integer columns hold exact integers, float columns floats,
boolean columns booleans, all other columns strings. -/
def typedValue (typeName : String) (v : Json) : Bool :=
  if isIntType (pyLower typeName) then v.isInt
  else if isFloatType (pyLower typeName) then v.isFloat
  else if isBoolType (pyLower typeName) then v.isBool
  else v.isStr

theorem convertCell_none (t : String) : convertCell t none = some Json.null := rfl

theorem convertCell_some_null (t : String) :
    convertCell t (some Json.null) = some Json.null := rfl

theorem convertCell_total (t : String) (v : Json) (h : validateOne t v = true) :
    ∃ w, convertCell t (some v) = some w := by
  unfold validateOne at h
  by_cases hI : isIntType (pyLower t) = true
  · cases v <;> simp_all [convertCell, convertValue, pyInt, pyIsInstInt]
  · by_cases hF : isFloatType (pyLower t) = true
    · cases v <;> simp_all [convertCell, convertValue, pyFloat, pyIsInstNum]
    · cases v <;> simp_all [convertCell, convertValue] <;> split <;> exact ⟨_, rfl⟩

theorem convertCell_typed (t : String) (v w : Json) (h : validateOne t v = true)
    (hw : convertCell t (some v) = some w) :
    w.isNull = true ∨ typedValue t w = true := by
  unfold validateOne at h
  unfold typedValue
  by_cases hI : isIntType (pyLower t) = true
  · cases v <;>
      simp_all [convertCell, convertValue, pyInt, pyIsInstInt, Json.isInt, Json.isNull] <;>
      simp [← hw, Json.isInt]
  · by_cases hF : isFloatType (pyLower t) = true
    · cases v <;>
        simp_all [convertCell, convertValue, pyFloat, pyIsInstNum, Json.isFloat, Json.isNull] <;>
        simp [← hw, Json.isFloat]
    · by_cases hB : isBoolType (pyLower t) = true
      · cases v <;>
          simp_all [convertCell, convertValue, pyIsInstBool, Json.isBool, Json.isNull] <;>
          simp [← hw, Json.isBool]
      · cases v <;>
          simp_all [convertCell, convertValue, Json.isStr, Json.isNull] <;>
          simp [← hw, Json.isStr]

theorem typed_validateOne (t : String) (w : Json) (h : typedValue t w = true) :
    validateOne t w = true := by
  unfold typedValue at h
  unfold validateOne
  by_cases hI : isIntType (pyLower t) = true
  · cases w <;> simp_all [Json.isInt, pyIsInstInt]
  · by_cases hF : isFloatType (pyLower t) = true
    · cases w <;> simp_all [Json.isFloat, pyIsInstNum]
    · by_cases hB : isBoolType (pyLower t) = true
      · cases w <;> simp_all [Json.isBool, pyIsInstBool]
      · by_cases hT : isTextType (pyLower t) = true <;>
          cases w <;> simp_all [Json.isStr, pyIsInstStr]

theorem typed_reconvert (t : String) (w : Json) (h : typedValue t w = true) :
    convertCell t (some w) = some w := by
  unfold typedValue at h
  by_cases hI : isIntType (pyLower t) = true
  · cases w <;> simp_all [convertCell, convertValue, pyInt, Json.isInt]
  · by_cases hF : isFloatType (pyLower t) = true
    · cases w <;> simp_all [convertCell, convertValue, pyFloat, Json.isFloat]
    · by_cases hB : isBoolType (pyLower t) = true
      · cases w <;> simp_all [convertCell, convertValue, pyTruthy, Json.isBool]
      · cases w <;> simp_all [convertCell, convertValue, pyStr, Json.isStr]

theorem lookup_cons_self {β : Type} (k : String) (b : β) (l : List (String × β)) :
    List.lookup k ((k, b) :: l) = some b := by
  simp [List.lookup]

theorem lookup_cons_ne {β : Type} (k a : String) (b : β) (l : List (String × β))
    (h : k ≠ a) : List.lookup k ((a, b) :: l) = List.lookup k l := by
  have hb : (k == a) = false := beq_eq_false_iff_ne.mpr h
  simp [List.lookup, hb]

theorem forall₂_mem_left {α β : Type} {R : α → β → Prop} {l1 : List α} {l2 : List β}
    (h : List.Forall₂ R l1 l2) {a : α} (ha : a ∈ l1) : ∃ b, b ∈ l2 ∧ R a b := by
  induction h with
  | nil => cases ha
  | cons hr _ ih =>
    rcases List.mem_cons.mp ha with rfl | ha'
    · exact ⟨_, List.mem_cons_self _ _, hr⟩
    · obtain ⟨b, hb, hrb⟩ := ih ha'
      exact ⟨b, List.mem_cons_of_mem _ hb, hrb⟩

theorem forall₂_imp_mem {α β : Type} {R S : α → β → Prop} {l1 : List α} {l2 : List β}
    (h : List.Forall₂ R l1 l2)
    (hs : ∀ a b, a ∈ l1 → b ∈ l2 → R a b → S a b) : List.Forall₂ S l1 l2 := by
  induction h with
  | nil => exact List.Forall₂.nil
  | cons hr htail ih =>
    refine List.Forall₂.cons (hs _ _ (List.mem_cons_self _ _) (List.mem_cons_self _ _) hr) ?_
    exact ih fun a b ha hb hr' => hs a b (List.mem_cons_of_mem _ ha) (List.mem_cons_of_mem _ hb) hr'

theorem validateFields_present (cols : List (String × String)) (fields : List (String × Json))
    (h : validateFields cols fields = true) :
    ∀ ct v, ct ∈ cols → fields.lookup ct.1 = some v → validateOne ct.2 v = true := by
  induction cols with
  | nil => intro ct v hmem; cases hmem
  | cons c rest ih =>
    simp only [validateFields, Bool.and_eq_true] at h
    intro ct v hmem hl
    rcases List.mem_cons.mp hmem with rfl | hmem'
    · rw [hl] at h
      exact h.1
    · exact ih h.2 ct v hmem' hl

theorem validateFields_of_present (cols : List (String × String)) (fields : List (String × Json))
    (h : ∀ ct v, ct ∈ cols → fields.lookup ct.1 = some v → validateOne ct.2 v = true) :
    validateFields cols fields = true := by
  induction cols with
  | nil => rfl
  | cons c rest ih =>
    simp only [validateFields, Bool.and_eq_true]
    refine ⟨?_, ih fun ct v h1 h2 => h ct v (List.mem_cons_of_mem _ h1) h2⟩
    cases hl : fields.lookup c.1 with
    | none => rfl
    | some v => exact h c v (List.mem_cons_self _ _) hl

/-- Main soundness lemma: on a validated field mapping, conversion succeeds
and each output entry carries the schema's column name together with the
converted cell of that column. -/
theorem convertFields_sound (cols : List (String × String)) (fields : List (String × Json))
    (h : validateFields cols fields = true) :
    ∃ out, convertFields cols fields = some out ∧
      List.Forall₂ (fun ct ov => ov.1 = ct.1 ∧
        convertCell ct.2 (fields.lookup ct.1) = some ov.2) cols out := by
  induction cols with
  | nil => exact ⟨[], rfl, List.Forall₂.nil⟩
  | cons ct rest ih =>
    simp only [validateFields, Bool.and_eq_true] at h
    obtain ⟨h1, h2⟩ := h
    obtain ⟨out, hout, hf2⟩ := ih h2
    have hcell : ∃ w, convertCell ct.2 (fields.lookup ct.1) = some w := by
      cases hl : fields.lookup ct.1 with
      | none => exact ⟨Json.null, rfl⟩
      | some v =>
        rw [hl] at h1
        exact convertCell_total ct.2 v h1
    obtain ⟨w, hw⟩ := hcell
    refine ⟨(ct.1, w) :: out, ?_, List.Forall₂.cons ⟨rfl, hw⟩ hf2⟩
    simp [convertFields, hw, hout]

theorem validateFields_extend (cols : List (String × String)) (fields : List (String × Json))
    (p : String × Json) (hp : p.1 ∉ cols.map Prod.fst) :
    validateFields cols (p :: fields) = validateFields cols fields := by
  induction cols with
  | nil => rfl
  | cons ct rest ih =>
    simp only [List.map_cons, List.mem_cons, not_or] at hp
    obtain ⟨h1, h2⟩ := hp
    obtain ⟨a, b⟩ := p
    simp only [validateFields]
    rw [lookup_cons_ne ct.1 a b fields (fun he => h1 he.symm)]
    rw [ih h2]

theorem convertFields_extend (cols : List (String × String)) (fields : List (String × Json))
    (p : String × Json) (hp : p.1 ∉ cols.map Prod.fst) :
    convertFields cols (p :: fields) = convertFields cols fields := by
  induction cols with
  | nil => rfl
  | cons ct rest ih =>
    simp only [List.map_cons, List.mem_cons, not_or] at hp
    obtain ⟨h1, h2⟩ := hp
    obtain ⟨a, b⟩ := p
    simp only [convertFields]
    rw [lookup_cons_ne ct.1 a b fields (fun he => h1 he.symm)]
    rw [ih h2]

/-- Core of the idempotence argument: a row whose entries carry the schema's
names (in order, with distinct names) and exactly-typed values re-validates
and re-converts to itself. -/
theorem idem_core (cols : List (String × String)) (out : List (String × Json))
    (hf2 : List.Forall₂ (fun ct ov => ov.1 = ct.1 ∧ typedValue ct.2 ov.2 = true) cols out)
    (hnd : (cols.map Prod.fst).Nodup) :
    validateFields cols out = true ∧ convertFields cols out = some out := by
  induction hf2 with
  | nil => exact ⟨rfl, rfl⟩
  | @cons ct ov rest out' hr htail ih =>
    obtain ⟨hname, htyped⟩ := hr
    simp only [List.map_cons, List.nodup_cons] at hnd
    obtain ⟨hnotin, hnd'⟩ := hnd
    obtain ⟨ihv, ihc⟩ := ih hnd'
    have hov : ov = (ct.1, ov.2) := by
      obtain ⟨a, b⟩ := ov
      simpa using congrArg (fun x => (x, b)) hname
    have hlook : List.lookup ct.1 (ov :: out') = some ov.2 := by
      rw [hov]; exact lookup_cons_self _ _ _
    have hext : ov.1 ∉ rest.map Prod.fst := by rw [hname]; exact hnotin
    constructor
    · simp only [validateFields, hlook, Bool.and_eq_true]
      exact ⟨typed_validateOne _ _ htyped, by rw [validateFields_extend rest out' ov hext]; exact ihv⟩
    · simp only [convertFields, hlook]
      rw [typed_reconvert _ _ htyped]
      rw [convertFields_extend rest out' ov hext, ihc]
      show some ((ct.1, ov.2) :: out') = some (ov :: out')
      rw [← hov]

/-! ### Claim theorems -/

theorem floatType_not_intType (pg : String) (h : isFloatType pg = true) :
    isIntType pg = false := by
  have hm : pg ∈ floatTypeNames := by simpa [isFloatType] using h
  fin_cases hm <;> rfl

/-- C1 counterexample: the Row Validator accepts a JSON boolean for an
integer-declared column (Python `bool` is a subclass of `int`), although a
boolean's runtime type is not an exact integer. -/
theorem validator_accepts_bool_for_integer_column :
    validate_row_schema [("a", "integer")] (.obj [("a", Json.bool true)]) = true ∧
    Json.isInt (Json.bool true) = false := ⟨rfl, rfl⟩

/-- C1 (amended): for every accepted Candidate Row, an integer-declared
column present in it holds a value whose runtime type is an exact integer or
a boolean (booleans being integers in the host runtime); a JSON number with
a fractional part is never accepted for an integer column (so never
truncated), while a float-declared column always accepts a float. -/
theorem integer_column_validation (cols : List (String × String))
    (row : List (String × Json)) (n t : String) (v : Json)
    (hmem : (n, t) ∈ cols) (ht : isIntType (pyLower t) = true)
    (hlook : row.lookup n = some v)
    (hacc : validate_row_schema cols (.obj row) = true) :
    ((v.isInt = true ∨ v.isBool = true) ∧ v.isFloat = false) ∧
      ∀ tf : String, ∀ q : Rat, isFloatType (pyLower tf) = true →
        validateOne tf (Json.float q) = true := by
  constructor
  · have h1 : validateOne t v = true :=
      validateFields_present cols row hacc (n, t) v hmem hlook
    unfold validateOne at h1
    rw [ht] at h1
    simp only [if_true] at h1
    cases v <;> simp_all [pyIsInstInt, Json.isInt, Json.isBool, Json.isFloat]
  · intro tf q htf
    unfold validateOne
    rw [floatType_not_intType (pyLower tf) htf, htf]
    simp [pyIsInstNum]

/-- C1 witness: instantiation at a one-column integer schema holding 7. -/
theorem integer_column_validation_witness :
    ((Json.int 7).isInt = true ∨ (Json.int 7).isBool = true) ∧
      (Json.int 7).isFloat = false :=
  (integer_column_validation [("a", "integer")] [("a", Json.int 7)] "a" "integer"
    (Json.int 7) (by decide) rfl rfl rfl).1

/-- C2: conversion of a validated row is total, and every output value is
null or of the exactly matching runtime type (integer columns exact
integers, float columns floats, boolean columns booleans, all other columns
strings). -/
theorem conversion_total_and_typed (cols : List (String × String))
    (fields : List (String × Json))
    (h : validate_row_schema cols (.obj fields) = true) :
    ∃ out, convert_row_to_postgres_format cols (.obj fields) = some out ∧
      List.Forall₂ (fun ct ov => ov.2 = Json.null ∨ typedValue ct.2 ov.2 = true) cols out := by
  have hv : validateFields cols fields = true := h
  obtain ⟨out, hc, hf2⟩ := convertFields_sound cols fields hv
  refine ⟨out, hc, forall₂_imp_mem hf2 ?_⟩
  intro ct ov hctmem hovmem hr
  obtain ⟨hname, hcell⟩ := hr
  cases hl : fields.lookup ct.1 with
  | none =>
    rw [hl, convertCell_none] at hcell
    exact Or.inl (Option.some.inj hcell).symm
  | some v =>
    have hone := validateFields_present cols fields hv ct v hctmem hl
    rw [hl] at hcell
    rcases convertCell_typed ct.2 v ov.2 hone hcell with hnull | htyped
    · exact Or.inl (by cases hv2 : ov.2 <;> simp_all [Json.isNull])
    · exact Or.inr htyped

/-- C2 witness: a mixed schema with integer, float, boolean, text and
unrecognized column types. -/
theorem conversion_total_and_typed_witness :
    validate_row_schema [("i", "integer"), ("f", "float8"), ("b", "bool"),
        ("s", "text"), ("u", "uuid")]
      (.obj [("i", Json.int 3), ("f", Json.float (mkRat 7 2)), ("b", Json.bool true),
        ("s", Json.str "x"), ("u", Json.arr [])]) = true ∧
    ∃ out, convert_row_to_postgres_format [("i", "integer"), ("f", "float8"), ("b", "bool"),
        ("s", "text"), ("u", "uuid")]
      (.obj [("i", Json.int 3), ("f", Json.float (mkRat 7 2)), ("b", Json.bool true),
        ("s", Json.str "x"), ("u", Json.arr [])]) = some out ∧
      List.Forall₂ (fun ct ov => ov.2 = Json.null ∨ typedValue ct.2 ov.2 = true)
        [("i", "integer"), ("f", "float8"), ("b", "bool"), ("s", "text"), ("u", "uuid")] out :=
  ⟨rfl, conversion_total_and_typed _ _ rfl⟩

/-- C5: a schema column absent from the Candidate Row never causes the
validator to reject (acceptance depends only on the columns that are
present), and the converter outputs null for every absent column. -/
theorem absent_column_null (cols : List (String × String)) (fields : List (String × Json))
    (hpresent : ∀ ct v, ct ∈ cols → fields.lookup ct.1 = some v → validateOne ct.2 v = true) :
    validate_row_schema cols (.obj fields) = true ∧
    ∃ out, convert_row_to_postgres_format cols (.obj fields) = some out ∧
      ∀ ct, ct ∈ cols → fields.lookup ct.1 = none → (ct.1, Json.null) ∈ out := by
  have hv : validateFields cols fields = true := validateFields_of_present cols fields hpresent
  refine ⟨hv, ?_⟩
  obtain ⟨out, hc, hf2⟩ := convertFields_sound cols fields hv
  refine ⟨out, hc, ?_⟩
  intro ct hmem hnone
  obtain ⟨ov, hovmem, hname, hcell⟩ := forall₂_mem_left hf2 hmem
  rw [hnone, convertCell_none] at hcell
  have hov : ov = (ct.1, Json.null) := by
    obtain ⟨a, b⟩ := ov
    simp only at hname
    have hb : Json.null = b := Option.some.inj hcell
    rw [hname, ← hb]
  rw [← hov]
  exact hovmem

/-- C5 witness: scenario C of the spec, schema `{active: boolean}` against
the empty candidate row. -/
theorem absent_column_null_witness :
    validate_row_schema [("active", "boolean")] (.obj []) = true ∧
    ∃ out, convert_row_to_postgres_format [("active", "boolean")] (.obj []) = some out ∧
      ∀ ct, ct ∈ [("active", "boolean")] → List.lookup ct.1 ([] : List (String × Json)) = none →
        (ct.1, Json.null) ∈ out :=
  absent_column_null [("active", "boolean")] [] (by intro ct v _ hl; simp [List.lookup] at hl)

/-- C6: the Accepted Row has exactly the schema's columns, in schema order;
in particular every candidate key outside the schema is dropped. -/
theorem converted_row_columns (cols : List (String × String)) (fields : List (String × Json))
    (h : validate_row_schema cols (.obj fields) = true) :
    ∃ out, convert_row_to_postgres_format cols (.obj fields) = some out ∧
      out.map Prod.fst = cols.map Prod.fst := by
  obtain ⟨out, hc, hf2⟩ := convertFields_sound cols fields h
  refine ⟨out, hc, ?_⟩
  clear hc h
  induction hf2 with
  | nil => rfl
  | cons hr _ ih => simp [hr.1, ih]

/-- C6 witness: a candidate row with an extra undeclared key `zz`. -/
theorem converted_row_columns_witness :
    validate_row_schema [("a", "integer")] (.obj [("a", Json.int 1), ("zz", Json.str "x")]) = true ∧
    ∃ out, convert_row_to_postgres_format [("a", "integer")]
        (.obj [("a", Json.int 1), ("zz", Json.str "x")]) = some out ∧
      out.map Prod.fst = [("a", "integer")].map Prod.fst :=
  ⟨rfl, converted_row_columns _ _ rfl⟩

/-- C10: validate-then-convert is idempotent on its own null-free output:
the Accepted Row re-validates and re-converts to the identical row. -/
theorem convert_idempotent (cols : List (String × String)) (fields : List (String × Json))
    (out : List (String × Json))
    (hnd : (cols.map Prod.fst).Nodup)
    (hval : validate_row_schema cols (.obj fields) = true)
    (hconv : convert_row_to_postgres_format cols (.obj fields) = some out)
    (hnn : ∀ p, p ∈ out → p.2.isNull = false) :
    validate_row_schema cols (.obj out) = true ∧
    convert_row_to_postgres_format cols (.obj out) = some out := by
  obtain ⟨out0, hc0, hf2⟩ := convertFields_sound cols fields hval
  have hco : convertFields cols fields = some out := hconv
  rw [hc0] at hco
  injection hco with hco
  subst hco
  have hf2' : List.Forall₂ (fun ct ov => ov.1 = ct.1 ∧ typedValue ct.2 ov.2 = true) cols out0 := by
    refine forall₂_imp_mem hf2 ?_
    intro ct ov hctm hovm hr
    obtain ⟨hname, hcell⟩ := hr
    refine ⟨hname, ?_⟩
    cases hl : fields.lookup ct.1 with
    | none =>
      rw [hl, convertCell_none] at hcell
      have h2 : ov.2 = Json.null := (Option.some.inj hcell).symm
      have h3 := hnn ov hovm
      rw [h2] at h3
      simp [Json.isNull] at h3
    | some v =>
      have hone := validateFields_present cols fields hval ct v hctm hl
      rw [hl] at hcell
      rcases convertCell_typed ct.2 v ov.2 hone hcell with hnull | ht
      · have h3 := hnn ov hovm
        rw [hnull] at h3
        simp at h3
      · exact ht
  exact idem_core cols out0 hf2' hnd

/-- C10 witness: a two-column accepted row with no nulls. -/
theorem convert_idempotent_witness :
    validate_row_schema [("i", "integer"), ("s", "text")]
      (.obj [("i", Json.int 2), ("s", Json.str "x")]) = true ∧
    convert_row_to_postgres_format [("i", "integer"), ("s", "text")]
      (.obj [("i", Json.int 2), ("s", Json.str "x")]) =
      some [("i", Json.int 2), ("s", Json.str "x")] :=
  convert_idempotent [("i", "integer"), ("s", "text")]
    [("i", Json.int 2), ("s", Json.str "x")] [("i", Json.int 2), ("s", Json.str "x")]
    (by decide) rfl rfl (by decide)

/-- Is the lowercased type name in one of the validator's recognized lists? -/
def recognizedType (pg : String) : Bool :=
  isIntType pg || isFloatType pg || isBoolType pg || isTextType pg

/-- A concrete wrapper state over the schema `{a: integer}`, as produced by
`__init__` with only the required options supplied. -/
def fdw0 : FDW :=
  { api_key := some "k"
    prompt := some "p"
    model := "gpt-3.5-turbo"
    max_tokens := 2000
    temperature := mkRat 7 10
    max_rows := 100
    columns := [("a", "integer")]
    column_names := ["a"]
    response_cache := none }

/-- C4 counterexample: a present JSON null in an integer column makes the
validator reject the whole row, and the pipeline then yields zero rows for
a response consisting of exactly that row — it does not emit a null cell. -/
theorem null_value_rejected :
    validate_row_schema [("a", "integer")] (.obj [("a", Json.null)]) = false ∧
    (executeS fdw0 (.ok (mkEnvelope "[\x7b\"a\": null\x7d]"))).1.1 = .ok [] := ⟨rfl, rfl⟩

/-- C4 (amended): a present JSON null fails validation for every recognized
declared type (integer, float, boolean, text-like), so such a row is
rejected rather than converted; only for columns with unrecognized declared
types does a present null pass validation, and there the converter outputs
null for it exactly as it does for an absent field. -/
theorem null_handling (t : String) :
    (recognizedType (pyLower t) = true → validateOne t Json.null = false) ∧
    (recognizedType (pyLower t) = false →
      validateOne t Json.null = true ∧
      convertCell t (some Json.null) = some Json.null ∧
      convertCell t none = some Json.null) := by
  unfold recognizedType validateOne
  constructor
  · intro h
    by_cases hI : isIntType (pyLower t) = true
    · simp [hI, pyIsInstInt]
    · by_cases hF : isFloatType (pyLower t) = true
      · simp [hI, hF, pyIsInstNum]
      · by_cases hB : isBoolType (pyLower t) = true
        · simp [hI, hF, hB, pyIsInstBool]
        · by_cases hT : isTextType (pyLower t) = true
          · simp [hI, hF, hB, hT, pyIsInstStr]
          · simp only [Bool.or_eq_true] at h
            rcases h with ((h1 | h2) | h3) | h4 <;> simp_all
  · intro h
    simp only [Bool.or_eq_false_iff] at h
    obtain ⟨⟨⟨hI, hF⟩, hB⟩, hT⟩ := h
    simp [hI, hF, hB, hT]
    exact ⟨rfl, rfl⟩

/-- C4 witness: instantiation at the recognized type `integer` and the
unrecognized type `uuid`. -/
theorem null_handling_witness :
    (recognizedType (pyLower "integer") = true ∧ validateOne "integer" Json.null = false) ∧
    (recognizedType (pyLower "uuid") = false ∧ validateOne "uuid" Json.null = true ∧
      convertCell "uuid" (some Json.null) = some Json.null) :=
  ⟨⟨rfl, (null_handling "integer").1 rfl⟩,
   ⟨rfl, ((null_handling "uuid").2 rfl).1, ((null_handling "uuid").2 rfl).2.1⟩⟩

/-- C8 counterexample: the validator does not type-check a column with an
unrecognized declared type at all — an integer value in a `uuid` column is
accepted, while the same value in a `text` column is rejected, so the
unrecognized column is not treated like generic text by the validator. -/
theorem unrecognized_type_not_checked :
    validate_row_schema [("a", "uuid")] (.obj [("a", Json.int 5)]) = true ∧
    validate_row_schema [("a", "text")] (.obj [("a", Json.int 5)]) = false := ⟨rfl, rfl⟩

/-- C8 (amended): a column with an unrecognized declared type is exempt from
validation (any present JSON value is accepted); its generic-text default
applies to the prompt hint and to conversion, which renders every present
non-null value as a string. -/
theorem unrecognized_type_behavior (t : String) (v : Json)
    (h : recognizedType (pyLower t) = false) :
    validateOne t v = true ∧
    (v.isNull = false → ∃ s, convertCell t (some v) = some (Json.str s)) ∧
    jsonTypeHint t = "string" := by
  simp only [recognizedType, Bool.or_eq_false_iff] at h
  obtain ⟨⟨⟨hI, hF⟩, hB⟩, hT⟩ := h
  refine ⟨by simp [validateOne, hI, hF, hB, hT], ?_, ?_⟩
  · intro hv
    cases v <;> simp_all [Json.isNull, convertCell, convertValue, hI, hF, hB]
  · have hd : ¬ pyLower t = "date" := by
      intro he
      rw [he] at hT
      simp [isTextType, textTypeNames] at hT
    have hts : ¬ pyLower t = "timestamp" := by
      intro he
      rw [he] at hT
      simp [isTextType, textTypeNames] at hT
    have htz : ¬ pyLower t = "timestamptz" := by
      intro he
      rw [he] at hT
      simp [isTextType, textTypeNames] at hT
    simp [jsonTypeHint, hI, hF, hB, hd, hts, htz]

/-- C8 witness: instantiation at the unrecognized type `uuid` holding 5. -/
theorem unrecognized_type_behavior_witness :
    recognizedType (pyLower "uuid") = false ∧
    validateOne "uuid" (Json.int 5) = true ∧
    (∃ s, convertCell "uuid" (some (Json.int 5)) = some (Json.str s)) ∧
    jsonTypeHint "uuid" = "string" := by
  have h := unrecognized_type_behavior "uuid" (Json.int 5) rfl
  exact ⟨rfl, h.1, h.2.1 rfl, h.2.2⟩

/-- Modelled from the claim wording for the Response Extractor: trim; strip
a leading fenced-code opening marker when it is immediately followed by a
language tag (any nonempty alphabetic tag); strip a trailing closing
marker; re-trim. -/
def specExtractAnyTag (cs : List Char) : List Char :=
  let c := pyStrip cs
  let c :=
    if "```".toList.isPrefixOf c then
      let tag := (c.drop 3).takeWhile Char.isAlpha
      if tag.isEmpty then c else c.drop (3 + tag.length)
    else c
  let c := if "```".toList.isSuffixOf c then c.take (c.length - 3) else c
  pyStrip c

/-- Modelled from the amended claim wording: strip the leading fenced-code
opening marker only when it is immediately followed by the language tag
`json`. -/
def specExtractJsonTag (cs : List Char) : List Char :=
  let c := pyStrip cs
  let c := if ("```".toList ++ "json".toList).isPrefixOf c
           then c.drop ("```".toList.length + "json".toList.length) else c
  let c := if "```".toList.isSuffixOf c then c.take (c.length - 3) else c
  pyStrip c

/-- C7 counterexample: a fenced block with the language tag `python` is not
unfenced by the code (only the literal `json` tag is recognized), so its
enclosed array fails to parse, while the claim's any-language-tag algorithm
would extract it. -/
theorem extract_any_tag_refuted :
    jsonLoads (extractContent "```python\n[1]\n```".toList) = none ∧
    jsonLoads (specExtractAnyTag "```python\n[1]\n```".toList) =
      some (.arr [.int 1]) := ⟨rfl, rfl⟩

/-- C7 (amended): the extractor trims, strips the leading fenced-code
opening marker exactly when it is immediately followed by the language tag
`json`, strips a trailing closing marker, re-trims, and only then parses;
in particular a `json`-tagged fenced array extracts to the enclosed
array. -/
theorem extract_equals_spec_json (cs : List Char) :
    extractContent cs = specExtractJsonTag cs ∧
    jsonLoads (extractContent "```json\n[1, 2]\n```".toList) =
      some (.arr [.int 1, .int 2]) := by
  constructor
  · unfold extractContent specExtractJsonTag
    have h1 : "```".toList ++ "json".toList = "```json".toList := rfl
    have h2 : "```".toList.length + "json".toList.length = 7 := rfl
    rw [h1, h2]
  · rfl

/-- The failure conditions named by claim C3, evaluated on the transport
outcome: the transport failed, the envelope lacks a usable completion
field, the completion text does not parse as JSON, or it parses to a
non-array top-level value. -/
def responseFailure : TransportResult → Bool
  | .exn => true
  | .badBody => true
  | .ok body =>
    match envelopeContent body with
    | .noChoices => true
    | .raised => true
    | .content s =>
      match jsonLoads (extractContent s.toList) with
      | none => true
      | some (.arr _) => false
      | some _ => true

theorem make_openai_request_fail (tr : TransportResult) (h : responseFailure tr = true) :
    (make_openai_request tr).1 = none ∧
    ∃ d, d ∈ (make_openai_request tr).2 ∧ d.isError = true := by
  cases tr with
  | exn =>
    exact ⟨rfl, LogEvent.httpError, by simp [make_openai_request], rfl⟩
  | badBody =>
    exact ⟨rfl, LogEvent.unexpectedError, by simp [make_openai_request], rfl⟩
  | ok body =>
    cases hec : envelopeContent body with
    | noChoices =>
      exact ⟨by simp [make_openai_request, hec],
             LogEvent.noChoicesError, by simp [make_openai_request, hec], rfl⟩
    | raised =>
      exact ⟨by simp [make_openai_request, hec],
             LogEvent.unexpectedError, by simp [make_openai_request, hec], rfl⟩
    | content s =>
      simp only [responseFailure, hec] at h
      simp only [make_openai_request, hec]
      simp only [String.toList] at h ⊢
      cases hjl : jsonLoads (extractContent s.data) with
      | none =>
        exact ⟨rfl, LogEvent.parseError, by simp, rfl⟩
      | some v =>
        cases v with
        | arr xs => simp_all
        | null => exact ⟨rfl, LogEvent.notArrayError, by simp, rfl⟩
        | bool b => exact ⟨rfl, LogEvent.notArrayError, by simp, rfl⟩
        | int n => exact ⟨rfl, LogEvent.notArrayError, by simp, rfl⟩
        | float q => exact ⟨rfl, LogEvent.notArrayError, by simp, rfl⟩
        | str s2 => exact ⟨rfl, LogEvent.notArrayError, by simp, rfl⟩
        | obj fs => exact ⟨rfl, LogEvent.notArrayError, by simp, rfl⟩

theorem executeS_of_request_none (st : FDW) (tr : TransportResult)
    (hn : (make_openai_request tr).1 = none) :
    executeS st tr = ((.ok [], (make_openai_request tr).2 ++ [.noDataWarning]), st) := by
  rcases hmk : make_openai_request tr with ⟨rd, logs⟩
  rw [hmk] at hn
  simp only at hn
  subst hn
  simp [executeS, makeOpenAIRequestS, generateSchemaInfoS, hmk]

/-- C3: when the transport fails, the envelope lacks the completion field,
the completion text is unparseable, or it parses to a non-array, the
pipeline yields zero rows and raises no exception — the failure appears
only as an ERROR event on the diagnostics sink. -/
theorem pipeline_fail_closed (st : FDW) (tr : TransportResult)
    (h : responseFailure tr = true) :
    (executeS st tr).1.1 = .ok [] ∧
    ∃ d, d ∈ (executeS st tr).1.2 ∧ d.isError = true := by
  obtain ⟨hn, d, hd, he⟩ := make_openai_request_fail tr h
  rw [executeS_of_request_none st tr hn]
  exact ⟨rfl, d, by simp only [List.mem_append]; exact Or.inl hd, he⟩

/-- C3 witness: a well-formed envelope whose completion text parses to a
JSON object rather than an array. -/
theorem pipeline_fail_closed_witness :
    responseFailure (.ok (mkEnvelope "\x7b\x7d")) = true ∧
    ((executeS fdw0 (.ok (mkEnvelope "\x7b\x7d"))).1.1 = .ok [] ∧
      ∃ d, d ∈ (executeS fdw0 (.ok (mkEnvelope "\x7b\x7d"))).1.2 ∧ d.isError = true) :=
  ⟨rfl, pipeline_fail_closed fdw0 (.ok (mkEnvelope "\x7b\x7d")) rfl⟩

theorem executeS_frame (st : FDW) (tr : TransportResult) : (executeS st tr).2 = st := by
  unfold executeS makeOpenAIRequestS generateSchemaInfoS
  rcases make_openai_request tr with ⟨rd, logs⟩
  cases rd with
  | none => rfl
  | some rows =>
    cases rows with
    | nil => rfl
    | cons r rs =>
      rcases h2 : processRows st.columns (r :: rs) with ⟨res, logs2⟩
      cases res <;> simp [h2]

/-- C9: executing the pipeline never mutates the wrapper state — after any
invocation every field set at construction is unchanged, and the response
cache field starts as `None` at construction and is still `None`
afterwards, so nothing is cached across invocations. -/
theorem execute_preserves_state (options columns : List (String × String)) (st : FDW)
    (tr : TransportResult) (h : initFDW options columns = some st) :
    (executeS st tr).2 = st ∧ st.response_cache = none ∧
    (executeS st tr).2.response_cache = none := by
  have hcache : st.response_cache = none := by
    unfold initFDW at h
    split at h
    · injection h with h2
      rw [← h2]
    · cases h
  exact ⟨executeS_frame st tr, hcache, by rw [executeS_frame st tr]; exact hcache⟩

/-- C9 witness: construction from the two required options and one integer
column, followed by a run with a failing transport. -/
theorem execute_preserves_state_witness :
    initFDW [("api_key", "k"), ("prompt", "p")] [("a", "integer")] = some fdw0 ∧
    ((executeS fdw0 .exn).2 = fdw0 ∧ fdw0.response_cache = none ∧
      (executeS fdw0 .exn).2.response_cache = none) :=
  ⟨rfl, execute_preserves_state [("api_key", "k"), ("prompt", "p")] [("a", "integer")]
    fdw0 .exn rfl⟩
